import Mathlib

/-!
Verification of `packages/alphawave/src/JSONResponseValidator.ts`.

The validator parses JSON objects out of a model response and optionally
checks them against a JSON schema, producing natural-language repair
feedback on failure.  We embed the class shallowly:

* JSON values are the inductive `Json`.
* The incoming `PromptResponse.message` is either a raw string or a
  structured message whose `content` field is a string, `null`, or
  absent/`undefined` (`Message` / `Content`).
* `Response.parseAllObjects` and the `jsonschema` library's
  `Validator.validate` are black boxes from the validator's point of view
  (the former lives outside the sources under verification, the latter is
  an external dependency), so `validateResponse` takes them as explicit
  function arguments `parse` and `sv`; every theorem below quantifies over
  all such functions.
* `Response.removeEmptyValuesFromObject` is also outside the sources under
  verification; it is modelled from the spec (see its doc comment).
* JavaScript runtime exceptions are modelled with `Except String`: a
  `.error` value corresponds to a thrown `TypeError`.  The two spots where
  the original code can observably throw are the non-null assertion
  `errors!` and `error.message.split(':')[1].trim()` in the `enum` branch
  of `getErrorFix` (index `[1]` yields `undefined` when the message has no
  colon, and `.trim()` on `undefined` throws).
-/

namespace Alphawave

/-- JSON values, as produced by `JSON.parse`.  Numbers are modelled as
integers; none of the validator's decision logic inspects numerals. -/
inductive Json where
  | null : Json
  | bool : Bool → Json
  | num : Int → Json
  | str : String → Json
  | arr : List Json → Json
  | obj : List (String × Json) → Json

/-- The `content` field of a structured message: a string, an explicit
`null`, or absent/`undefined`.  The source distinguishes `null` (checked
with `===`) from `undefined` (both are defaulted to `''` by `?? ''`). -/
inductive Content where
  | null : Content
  | undefined : Content
  | text : String → Content

/-- A `PromptResponse.message`: either a plain string or a structured
message object with a `content` field. -/
inductive Message where
  | str : String → Message
  | obj : Content → Message

/-- One entry of the `jsonschema` library's error list
(`ValidationError`): property path, categorical error name, offending
argument and human-readable message. -/
structure ValidationError where
  property : String
  name : String
  argument : Json
  message : String

/-- The result object returned by `validator.validate(obj, schema)`:
a validity flag plus the error list. -/
structure ValidatorResult where
  valid : Bool
  errors : List ValidationError

/-- The `Validation` result produced by `validateResponse`:
`valid` with a value (possibly `Json.null`) or `invalid` with feedback. -/
inductive Validation where
  | valid : Json → Validation
  | invalid : String → Validation

/-- Embeds `const text = typeof message === 'string' ? message :
message.content ?? ''` (line 40 of the source). -/
def messageText : Message → String
  | Message.str s => s
  | Message.obj (Content.text s) => s
  | Message.obj Content.null => ""
  | Message.obj Content.undefined => ""

/-- Embeds the guard `typeof message === 'object' && message.content ===
null` (line 45 of the source): only a structured message whose content is
strictly `null` qualifies. -/
def isExplicitNull : Message → Bool
  | Message.obj Content.null => true
  | _ => false

mutual

/-- Modelled from the spec: `Response.removeEmptyValuesFromObject` is not
among the sources under verification.  The spec says candidates have "any
object-valued properties that are empty" stripped, "empty
containers/empty nested objects removed before validation".  We clean
recursively: every property whose (cleaned) value is an empty JSON object
is dropped; non-object values pass through unchanged. -/
def removeEmptyValuesFromObject : Json → Json
  | Json.obj entries => Json.obj (cleanEntries entries)
  | j => j

/-- Helper for `removeEmptyValuesFromObject`: cleans the property list of
an object, dropping entries whose cleaned value is the empty object. -/
def cleanEntries : List (String × Json) → List (String × Json)
  | [] => []
  | (k, v) :: rest =>
    match removeEmptyValuesFromObject v with
    | Json.obj [] => cleanEntries rest
    | v2 => (k, v2) :: cleanEntries rest

end

mutual

/-- JavaScript `String(x)` / `x.toString()` semantics on JSON values:
strings render as themselves (unquoted), booleans and numbers via their
decimal text, `null` as the text `null`, arrays via
`Array.prototype.toString` (a comma join) and plain objects as the text
`[object Object]`. -/
def jsToString : Json → String
  | Json.null => "null"
  | Json.bool b => if b then "true" else "false"
  | Json.num n => toString n
  | Json.str s => s
  | Json.arr items => joinComma items
  | Json.obj _ => "[object Object]"

/-- JavaScript `Array.prototype.join(',')`: elements are rendered with
`String(x)`, except that `null` (and `undefined`) render as the empty
string. -/
def joinComma : List Json → String
  | [] => ""
  | [Json.null] => ""
  | [j] => jsToString j
  | Json.null :: rest => "," ++ joinComma rest
  | j :: rest => jsToString j ++ "," ++ joinComma rest

end

/-- Escapes one character for `JSON.stringify` string output (quotation
mark and backslash; other characters pass through). -/
def escapeJsonChar (c : Char) : String :=
  if c = '\"' then "\\\"" else if c = '\\' then "\\\\" else String.singleton c

/-- Escapes a string body for `JSON.stringify`. -/
def escapeJson (s : String) : String :=
  String.join (s.toList.map escapeJsonChar)

mutual

/-- JavaScript `JSON.stringify` on JSON values (no indentation). -/
def stringify : Json → String
  | Json.null => "null"
  | Json.bool b => if b then "true" else "false"
  | Json.num n => toString n
  | Json.str s => "\"" ++ escapeJson s ++ "\""
  | Json.arr items => "[" ++ stringifyItems items ++ "]"
  | Json.obj entries => "\x7b" ++ stringifyEntries entries ++ "\x7d"

/-- Comma-separated `JSON.stringify` of array elements. -/
def stringifyItems : List Json → String
  | [] => ""
  | [j] => stringify j
  | j :: rest => stringify j ++ "," ++ stringifyItems rest

/-- Comma-separated `JSON.stringify` of object properties. -/
def stringifyEntries : List (String × Json) → String
  | [] => ""
  | [(k, v)] => "\"" ++ escapeJson k ++ "\":" ++ stringify v
  | (k, v) :: rest => "\"" ++ escapeJson k ++ "\":" ++ stringify v ++ "," ++ stringifyEntries rest

end

/-- Embeds lines 93-101 of the source, the uniform stringification of
`error.argument` used by every feedback template: a JavaScript array is
rendered with `join(',')`; otherwise a value of type `object` (which in
JavaScript includes `null`) is rendered with `JSON.stringify`; any other
value via its `toString()`. -/
def stringifyArg : Json → String
  | Json.arr items => joinComma items
  | Json.obj entries => stringify (Json.obj entries)
  | Json.null => stringify Json.null
  | j => jsToString j

/-- JavaScript `String.prototype.split` with a one-character separator,
on a character list: splits at every occurrence of the separator, keeping
empty segments (so the result is always nonempty). -/
def splitChars (sep : Char) : List Char → List (List Char)
  | [] => [[]]
  | c :: rest =>
    if c = sep then [] :: splitChars sep rest
    else
      match splitChars sep rest with
      | [] => [[c]]
      | g :: gs => (c :: g) :: gs

/-- JavaScript `s.split(sep)` for a one-character separator, on strings.
The source only ever splits on the one-character string `":"`. -/
def jsSplitChar (sep : Char) (s : String) : List String :=
  (splitChars sep s.data).map (fun cs => ⟨cs⟩)

/-- JavaScript `String.prototype.trim`: strips leading and trailing
whitespace. -/
def jsTrim (s : String) : String :=
  ⟨((s.data.dropWhile Char.isWhitespace).reverse.dropWhile Char.isWhitespace).reverse⟩

/-- Embeds `getErrorFix` (lines 92-132 of the source).  The `enum` branch
reads `error.message.split(':')[1].trim()`; when the message contains no
colon, index `[1]` is `undefined` and `.trim()` throws a `TypeError`,
modelled as `Except.error`.  Every other branch is total. -/
def getErrorFix (error : ValidationError) : Except String String :=
  let arg := stringifyArg error.argument
  match error.name with
  | "type" => Except.ok ("convert \"" ++ error.property ++ "\" to a " ++ arg)
  | "anyOf" => Except.ok ("convert \"" ++ error.property ++ "\" to one of the allowed types: " ++ arg)
  | "additionalProperties" => Except.ok ("remove the \"" ++ arg ++ "\" property from \"" ++ error.property ++ "\"")
  | "required" => Except.ok ("add the \"" ++ arg ++ "\" property to \"" ++ error.property ++ "\"")
  | "format" => Except.ok ("change the \"" ++ error.property ++ "\" property to be a " ++ arg)
  | "uniqueItems" => Except.ok ("remove all duplicate items from \"" ++ error.property ++ "\"")
  | "enum" =>
    match (jsSplitChar ':' error.message).get? 1 with
    | some seg => Except.ok ("change the \"" ++ error.property ++ "\" property to be one of these values: " ++ jsTrim seg)
    | none => Except.error "TypeError: undefined has no method trim"
  | "const" => Except.ok ("change the \"" ++ error.property ++ "\" property to be " ++ arg)
  | _ => Except.ok ("\"" ++ error.property ++ "\" " ++ error.message ++ ". Fix that")

/-- Maps `getErrorFix` over an error list, left to right, propagating a
thrown `TypeError`.  Embeds `errors!.map(e => this.getErrorFix(e))` of
line 80 of the source, where an exception in any element aborts the whole
expression. -/
def mapGetErrorFix : List ValidationError → Except String (List String)
  | [] => Except.ok []
  | e :: rest =>
    match getErrorFix e with
    | Except.ok fix =>
      match mapGetErrorFix rest with
      | Except.ok fixes => Except.ok (fix :: fixes)
      | Except.error err => Except.error err
    | Except.error err => Except.error err

/-- The readonly configuration of a `JSONResponseValidator` instance.
`σ` is the (opaque) type of JSON schemas; the validator only ever tests
the schema for presence and hands it to the external validation routine. -/
structure JSONResponseValidator (σ : Type) where
  schema : Option σ
  missingJsonFeedback : String
  errorFeedback : String

/-- Embeds the constructor (lines 18-22 of the source): optional feedback
strings default via `??` to the built-in messages. -/
def mkValidator {σ : Type} (schema : Option σ)
    (missingJsonFeedback errorFeedback : Option String) : JSONResponseValidator σ :=
  ⟨schema,
   missingJsonFeedback.getD "No valid JSON objects were found in the response. Return a valid JSON object.",
   errorFeedback.getD "The JSON returned had errors. Apply these fixes:"⟩

/-- Outcome of the backward candidate scan of lines 61-75: either some
cleaned candidate validated, or the scan finished with the error list
captured from the first failure (`none` when the loop body never ran). -/
inductive ScanResult where
  | found : Json → ScanResult
  | failed : Option (List ValidationError) → ScanResult

/-- Embeds the `for` loop of lines 61-75 of the source, applied to the
already-reversed candidate list.  Each candidate is cleaned with
`removeEmptyValuesFromObject` and validated with the external routine
`sv`; the first success stops the scan, and `errors` keeps the error list
of the first failure only (`else if (!errors) errors = result.errors`;
note an empty error array is truthy in JavaScript, matching `Option.isSome`
on `some []`). -/
def scanRev {σ : Type} (sv : Json → σ → ValidatorResult) (schema : σ) :
    List Json → Option (List ValidationError) → ScanResult
  | [], errors => ScanResult.failed errors
  | j :: rest, errors =>
    let obj := removeEmptyValuesFromObject j
    let result := sv obj schema
    if result.valid then ScanResult.found obj
    else scanRev sv schema rest (if errors.isSome then errors else some result.errors)

/-- Embeds `validateResponse` (lines 38-90 of the source).  `sv` stands
for the external `jsonschema` routine `new Validator().validate`, `parse`
for `Response.parseAllObjects` (outside the sources under verification;
all theorems quantify over it).  The returned `Promise` always resolves
immediately, so the embedding drops the `Promise` wrapper; a JavaScript
`TypeError` surfaces as `Except.error`.  The `remaining_attempts`
parameter is accepted and never read, exactly as in the source. -/
def validateResponse {σ : Type} (self : JSONResponseValidator σ)
    (sv : Json → σ → ValidatorResult) (parse : String → List Json)
    (message : Message) (remaining_attempts : Nat) : Except String Validation :=
  let text := messageText message
  let parsed := parse text
  match parsed with
  | [] =>
    if isExplicitNull message then
      Except.ok (Validation.valid Json.null)
    else
      Except.ok (Validation.invalid self.missingJsonFeedback)
  | first :: rest =>
    match self.schema with
    | some schema =>
      match scanRev sv schema (first :: rest).reverse none with
      | ScanResult.found obj => Except.ok (Validation.valid obj)
      | ScanResult.failed (some errors) =>
        match mapGetErrorFix errors with
        | Except.ok fixes =>
          Except.ok (Validation.invalid (self.errorFeedback ++ "\n" ++ String.intercalate "\n" fixes))
        | Except.error e => Except.error e
      | ScanResult.failed none => Except.error "TypeError: undefined is not an object"
    | none =>
      Except.ok (Validation.valid ((first :: rest).getLast (List.cons_ne_nil first rest)))

/-- The spec's wording for the `enum` feedback argument: the text of the
validator's message after the FIRST colon, trimmed.  Kept separate from
`getErrorFix` so the two readings can be compared. -/
def specEnumArg (message : String) : String :=
  match jsSplitChar ':' message with
  | [] => ""
  | _ :: rest => jsTrim (String.intercalate ":" rest)

namespace Ex

/-- Concrete error descriptor in the shape `jsonschema` produces for a
type violation, used to instantiate the general theorems. -/
def errType : ValidationError :=
  ⟨"instance.age", "type", Json.str "number", "is not of a type(s) number"⟩

/-- Concrete candidate with an empty-object-valued property `b`. -/
def obj1 : Json := Json.obj [("a", Json.num 1), ("b", Json.obj [])]

/-- The cleaned form of `obj1`: the empty-object property is stripped. -/
def obj1c : Json := Json.obj [("a", Json.num 1)]

/-- Concrete candidate with no empty-object properties. -/
def obj2 : Json := Json.obj [("a", Json.num 2)]

/-- Concrete schema-validation routine: accepts exactly the object
`a: 1` and reports a type error on everything else. -/
def sv1 : Json → Unit → ValidatorResult := fun j _ =>
  match j with
  | Json.obj [("a", Json.num 1)] => ⟨true, []⟩
  | _ => ⟨false, [errType]⟩

/-- Concrete schema-validation routine that rejects everything. -/
def sv2 : Json → Unit → ValidatorResult := fun _ _ => ⟨false, [errType]⟩

/-- Concrete schema-validation routine that rejects everything with an
empty error list. -/
def sv3 : Json → Unit → ValidatorResult := fun _ _ => ⟨false, []⟩

/-- Concrete extraction routine: the sample text yields two candidate
objects in order of appearance, every other text none. -/
def parse1 : String → List Json := fun t =>
  if t = "first object then second object" then [obj1, obj2] else []

/-- Concrete extraction routine that extracts nothing from any text. -/
def parse0 : String → List Json := fun _ => []

/-- Validator instance configured with a schema and default feedback. -/
def cfgS : JSONResponseValidator Unit := mkValidator (some ()) none none

/-- Validator instance configured without a schema. -/
def cfgN : JSONResponseValidator Unit := mkValidator none none none

end Ex

/-- Helper: when some candidate in the scan order satisfies the schema,
the scan returns the first such candidate, cleaned, whatever error state
it carries. -/
theorem scanRev_of_find_some {σ : Type} (sv : Json → σ → ValidatorResult) (schema : σ)
    (l : List Json) (errs : Option (List ValidationError)) (c : Json)
    (hc : l.find? (fun j => (sv (removeEmptyValuesFromObject j) schema).valid) = some c) :
    scanRev sv schema l errs = ScanResult.found (removeEmptyValuesFromObject c) := by
  induction l generalizing errs with
  | nil => simp at hc
  | cons j rest ih =>
    by_cases hj : (sv (removeEmptyValuesFromObject j) schema).valid = true
    · rw [@List.find?_cons_of_pos Json (fun x => (sv (removeEmptyValuesFromObject x) schema).valid) j rest hj] at hc
      cases hc
      simp only [scanRev]
      rw [if_pos hj]
    · rw [@List.find?_cons_of_neg Json (fun x => (sv (removeEmptyValuesFromObject x) schema).valid) j rest hj] at hc
      simp only [scanRev]
      rw [if_neg hj]
      exact ih _ hc

/-- Helper: once the error state is set, a scan in which no candidate
validates keeps that error state untouched. -/
theorem scanRev_of_find_none {σ : Type} (sv : Json → σ → ValidatorResult) (schema : σ)
    (l : List Json) (es : List ValidationError)
    (hn : l.find? (fun j => (sv (removeEmptyValuesFromObject j) schema).valid) = none) :
    scanRev sv schema l (some es) = ScanResult.failed (some es) := by
  induction l with
  | nil => rfl
  | cons j rest ih =>
    have hj : ¬ (sv (removeEmptyValuesFromObject j) schema).valid = true := by
      intro h
      rw [@List.find?_cons_of_pos Json (fun x => (sv (removeEmptyValuesFromObject x) schema).valid) j rest h] at hn
      simp at hn
    rw [@List.find?_cons_of_neg Json (fun x => (sv (removeEmptyValuesFromObject x) schema).valid) j rest hj] at hn
    simp only [scanRev]
    rw [if_neg hj]
    exact ih hn

/-- Helper: on a scan in which no candidate validates, the captured error
list is that of the very first candidate examined. -/
theorem scanRev_cons_invalid {σ : Type} (sv : Json → σ → ValidatorResult) (schema : σ)
    (j : Json) (rest : List Json)
    (hj : (sv (removeEmptyValuesFromObject j) schema).valid = false)
    (hrest : rest.find? (fun x => (sv (removeEmptyValuesFromObject x) schema).valid) = none) :
    scanRev sv schema (j :: rest) none
      = ScanResult.failed (some ((sv (removeEmptyValuesFromObject j) schema).errors)) := by
  have hj2 : ¬ (sv (removeEmptyValuesFromObject j) schema).valid = true := by simp [hj]
  simp only [scanRev]
  rw [if_neg hj2]
  exact scanRev_of_find_none sv schema rest _ hrest

/-- Helper: `getErrorFix` only ever throws in the `enum` branch, and only
when the message lacks a colon. -/
theorem getErrorFix_isOk (e : ValidationError)
    (henum : e.name = "enum" → ((jsSplitChar ':' e.message).get? 1).isSome = true) :
    ∃ out, getErrorFix e = Except.ok out := by
  unfold getErrorFix
  split
  any_goals exact ⟨_, rfl⟩
  rename_i hname
  split
  · exact ⟨_, rfl⟩
  · rename_i hnone
    exfalso
    have hs := henum hname
    rw [hnone] at hs
    simp at hs

/-- Helper: mapping `getErrorFix` over errors that each translate without
throwing produces a fix list without throwing. -/
theorem mapGetErrorFix_isOk (es : List ValidationError)
    (h : ∀ e ∈ es, ∃ out, getErrorFix e = Except.ok out) :
    ∃ fixes, mapGetErrorFix es = Except.ok fixes := by
  induction es with
  | nil => exact ⟨[], rfl⟩
  | cons e rest ih =>
    obtain ⟨out, hout⟩ := h e (List.mem_cons_self e rest)
    obtain ⟨fixes, hfixes⟩ := ih (fun x hx => h x (List.mem_cons_of_mem _ hx))
    exact ⟨out :: fixes, by simp [mapGetErrorFix, hout, hfixes]⟩

/-- C1: with a schema configured and at least one extracted candidate,
`validateResponse` scans the candidates from the last backward to the
first, cleaning each with `removeEmptyValuesFromObject` before
validating, and returns `valid` with the first cleaned candidate that
validates, stopping there (`List.find?` over the reversed list is exactly
the backward scan with its early stop). -/
theorem validateResponse_schema_backward_scan {σ : Type}
    (self : JSONResponseValidator σ) (sv : Json → σ → ValidatorResult)
    (parse : String → List Json) (message : Message) (r : Nat)
    (s : σ) (hs : self.schema = some s)
    (first : Json) (rest : List Json)
    (hp : parse (messageText message) = first :: rest)
    (c : Json)
    (hc : (first :: rest).reverse.find?
        (fun j => (sv (removeEmptyValuesFromObject j) s).valid) = some c) :
    validateResponse self sv parse message r
      = Except.ok (Validation.valid (removeEmptyValuesFromObject c)) := by
  have hscan := scanRev_of_find_some sv s ((first :: rest).reverse) none c hc
  rw [List.reverse_cons] at hscan
  simp [validateResponse, hp, hs, hscan]

/-- C2: with no schema configured and at least one extracted candidate,
`validateResponse` returns `valid` with the parsed object of the last
extracted span, whatever the earlier candidates contain. -/
theorem validateResponse_no_schema_returns_last {σ : Type}
    (self : JSONResponseValidator σ) (sv : Json → σ → ValidatorResult)
    (parse : String → List Json) (message : Message) (r : Nat)
    (hs : self.schema = none)
    (first : Json) (rest : List Json)
    (hp : parse (messageText message) = first :: rest) :
    validateResponse self sv parse message r
      = Except.ok (Validation.valid ((first :: rest).getLast (List.cons_ne_nil first rest))) := by
  simp [validateResponse, hp, hs]

/-- C3: when zero objects are extracted, `validateResponse` returns
`valid` with value `null` when the message explicitly carries null
content, and otherwise `invalid` with the configured missing-JSON
feedback. -/
theorem validateResponse_no_json {σ : Type}
    (self : JSONResponseValidator σ) (sv : Json → σ → ValidatorResult)
    (parse : String → List Json) (message : Message) (r : Nat)
    (hp : parse (messageText message) = []) :
    validateResponse self sv parse message r
      = if isExplicitNull message then Except.ok (Validation.valid Json.null)
        else Except.ok (Validation.invalid self.missingJsonFeedback) := by
  simp only [validateResponse, hp]

/-- C4: with a schema configured and no candidate validating,
`validateResponse` returns `invalid` whose feedback is the configured
error-feedback header followed by the newline-joined translated lines of
the error set of the last extracted object only (the first candidate the
backward scan examines); other candidates contribute nothing. -/
theorem validateResponse_schema_all_fail {σ : Type}
    (self : JSONResponseValidator σ) (sv : Json → σ → ValidatorResult)
    (parse : String → List Json) (message : Message) (r : Nat)
    (s : σ) (hs : self.schema = some s)
    (first : Json) (rest : List Json)
    (hp : parse (messageText message) = first :: rest)
    (hall : ∀ j ∈ first :: rest, (sv (removeEmptyValuesFromObject j) s).valid = false)
    (fixes : List String)
    (hfix : mapGetErrorFix ((sv (removeEmptyValuesFromObject
        ((first :: rest).getLast (List.cons_ne_nil first rest))) s).errors)
      = Except.ok fixes) :
    validateResponse self sv parse message r
      = Except.ok (Validation.invalid
          (self.errorFeedback ++ "\n" ++ String.intercalate "\n" fixes)) := by
  have hne : (first :: rest) ≠ [] := List.cons_ne_nil first rest
  obtain ⟨a, tail, hrev⟩ :=
    List.exists_cons_of_ne_nil (show (first :: rest).reverse ≠ [] by simp)
  have hmem : a ∈ first :: rest := by
    rw [← List.mem_reverse, hrev]
    exact List.mem_cons_self a tail
  have ha : a = (first :: rest).getLast hne := by
    have h1 : (first :: rest).reverse.head? = some a := by rw [hrev]; rfl
    rw [List.head?_reverse, List.getLast?_eq_getLast _ hne] at h1
    exact (Option.some.inj h1).symm
  have hja : (sv (removeEmptyValuesFromObject a) s).valid = false := hall a hmem
  have htail : tail.find? (fun x => (sv (removeEmptyValuesFromObject x) s).valid) = none := by
    rw [List.find?_eq_none]
    intro x hx
    have hx2 : x ∈ first :: rest := by
      rw [← List.mem_reverse, hrev]
      exact List.mem_cons_of_mem a hx
    simp [hall x hx2]
  have hscan : scanRev sv s ((first :: rest).reverse) none
      = ScanResult.failed (some ((sv (removeEmptyValuesFromObject a) s).errors)) := by
    rw [hrev]
    exact scanRev_cons_invalid sv s a tail hja htail
  rw [← ha] at hfix
  rw [List.reverse_cons] at hscan
  simp [validateResponse, hp, hs, hscan, hfix]

/-- C5: under the error-descriptor shape the `jsonschema` library
guarantees (the message of an `enum` error always carries a colon, as in
`is not one of enum values: ...`), `validateResponse` never throws: it
resolves to a `Validation` value for every message, schema presence and
extraction result. -/
theorem validateResponse_never_throws {σ : Type}
    (self : JSONResponseValidator σ) (sv : Json → σ → ValidatorResult)
    (parse : String → List Json) (message : Message) (r : Nat)
    (henum : ∀ (j : Json) (sc : σ), ∀ e ∈ (sv j sc).errors,
      e.name = "enum" → ((jsSplitChar ':' e.message).get? 1).isSome = true) :
    ∃ v, validateResponse self sv parse message r = Except.ok v := by
  cases hp : parse (messageText message) with
  | nil =>
    by_cases hnull : isExplicitNull message = true
    · exact ⟨Validation.valid Json.null, by simp [validateResponse, hp, hnull]⟩
    · exact ⟨Validation.invalid self.missingJsonFeedback,
        by simp [validateResponse, hp, hnull]⟩
  | cons first rest =>
    cases hss : self.schema with
    | none =>
      exact ⟨Validation.valid ((first :: rest).getLast (List.cons_ne_nil first rest)),
        by simp [validateResponse, hp, hss]⟩
    | some s =>
      cases hfind : (first :: rest).reverse.find?
          (fun j => (sv (removeEmptyValuesFromObject j) s).valid) with
      | some c =>
        have hscan := scanRev_of_find_some sv s ((first :: rest).reverse) none c hfind
        rw [List.reverse_cons] at hscan
        exact ⟨Validation.valid (removeEmptyValuesFromObject c),
          by simp [validateResponse, hp, hss, hscan]⟩
      | none =>
        obtain ⟨a, tail, hrev⟩ :=
          List.exists_cons_of_ne_nil (show (first :: rest).reverse ≠ [] by simp)
        rw [hrev] at hfind
        rw [List.find?_eq_none] at hfind
        have hja : (sv (removeEmptyValuesFromObject a) s).valid = false := by
          have := hfind a (List.mem_cons_self a tail)
          simpa using this
        have htail : tail.find? (fun x => (sv (removeEmptyValuesFromObject x) s).valid) = none := by
          rw [List.find?_eq_none]
          intro x hx
          exact hfind x (List.mem_cons_of_mem a hx)
        have hscan : scanRev sv s ((first :: rest).reverse) none
            = ScanResult.failed (some ((sv (removeEmptyValuesFromObject a) s).errors)) := by
          rw [hrev]
          exact scanRev_cons_invalid sv s a tail hja htail
        obtain ⟨fixes, hfx⟩ := mapGetErrorFix_isOk
          ((sv (removeEmptyValuesFromObject a) s).errors)
          (fun e he => getErrorFix_isOk e (henum (removeEmptyValuesFromObject a) s e he))
        rw [List.reverse_cons] at hscan
        exact ⟨Validation.invalid (self.errorFeedback ++ "\n" ++ String.intercalate "\n" fixes),
          by simp [validateResponse, hp, hss, hscan, hfx]⟩

/-- C6 counterexample: the spec says the argument of the enum feedback is
the text of the validator message AFTER THE FIRST COLON, trimmed, but the
source takes `split(':')[1]`, the segment strictly between the first and
second colons.  On a library-shaped enum message whose enum values
themselves contain a colon the two disagree: the code emits `a`, the
spec-described value is `a:b,c`. -/
theorem getErrorFix_enum_spec_cex :
    getErrorFix ⟨"color", "enum", Json.arr [Json.str "a:b", Json.str "c"],
        "is not one of enum values: a:b,c"⟩
      = Except.ok "change the \"color\" property to be one of these values: a"
  ∧ specEnumArg "is not one of enum values: a:b,c" = "a:b,c"
  ∧ "a" ≠ "a:b,c" := by
  exact ⟨rfl, rfl, by decide⟩

/-- C6 (amended): for every enum-kind error descriptor whose message
contains a colon, the feedback line is `change the "<property>" property
to be one of these values: ` followed by the second colon-separated
segment of the validator message (the text between the first and the
second colon, or everything after the first colon when no second colon
exists), trimmed; a message with no colon at all makes the source throw
instead of producing a line. -/
theorem getErrorFix_enum_second_segment (e : ValidationError)
    (hname : e.name = "enum") (seg : String)
    (hseg : (jsSplitChar ':' e.message).get? 1 = some seg) :
    getErrorFix e = Except.ok
      ("change the \"" ++ e.property ++ "\" property to be one of these values: " ++ jsTrim seg) := by
  rw [List.get?_eq_getElem?] at hseg
  simp [getErrorFix, hname, hseg]

/-- C7: the offending argument is stringified uniformly across all
feedback templates by the single routine `stringifyArg`: a sequence is
its elements joined by commas, a structured value (and `null`, which
JavaScript types as object) is its JSON text, and scalars use their
natural string rendering. -/
theorem stringifyArg_uniform :
    (∀ items : List Json, stringifyArg (Json.arr items) = joinComma items)
  ∧ (∀ entries : List (String × Json),
      stringifyArg (Json.obj entries) = stringify (Json.obj entries))
  ∧ (∀ s : String, stringifyArg (Json.str s) = s)
  ∧ (∀ b : Bool, stringifyArg (Json.bool b) = (if b then "true" else "false"))
  ∧ (∀ n : Int, stringifyArg (Json.num n) = toString n)
  ∧ stringifyArg Json.null = stringify Json.null :=
  ⟨fun _ => rfl, fun _ => rfl, fun _ => rfl, fun _ => rfl, fun _ => rfl, rfl⟩

/-- C8: `validateResponse` is a pure function of the construction-time
configuration and the message (its text together with the
explicit-null-content flag, both derived from the message alone): two
calls agreeing on those data return identical results, so calling twice
with the same inputs yields the same result and no state survives a
call. -/
theorem validateResponse_deterministic {σ : Type}
    (self : JSONResponseValidator σ) (sv : Json → σ → ValidatorResult)
    (parse : String → List Json) (m1 m2 : Message) (r : Nat)
    (htext : messageText m1 = messageText m2)
    (hnull : isExplicitNull m1 = isExplicitNull m2) :
    validateResponse self sv parse m1 r = validateResponse self sv parse m2 r := by
  unfold validateResponse
  rw [htext, hnull]

/-- C9: the `remaining_attempts` argument is accepted and never read; the
result is identical for any two values of it. -/
theorem validateResponse_ignores_remaining_attempts {σ : Type}
    (self : JSONResponseValidator σ) (sv : Json → σ → ValidatorResult)
    (parse : String → List Json) (message : Message) (r1 r2 : Nat) :
    validateResponse self sv parse message r1
      = validateResponse self sv parse message r2 := rfl

/-- C10: a structured message whose content is absent/`undefined` is
treated as empty text and, when extraction finds nothing there, yields
`invalid` with the missing-JSON feedback; only a content field strictly
equal to `null` yields `valid null`. -/
theorem validateResponse_undefined_vs_null {σ : Type}
    (self : JSONResponseValidator σ) (sv : Json → σ → ValidatorResult)
    (parse : String → List Json) (r : Nat)
    (hp : parse "" = []) :
    validateResponse self sv parse (Message.obj Content.undefined) r
      = Except.ok (Validation.invalid self.missingJsonFeedback)
  ∧ validateResponse self sv parse (Message.obj Content.null) r
      = Except.ok (Validation.valid Json.null) := by
  constructor
  · simp [validateResponse, messageText, isExplicitNull, hp]
  · simp [validateResponse, messageText, isExplicitNull, hp]


/-- Witness for C1 at a concrete input: two candidates, the later one
failing, the earlier one validating after its empty-object property is
stripped. -/
theorem validateResponse_schema_backward_scan_witness :
    Ex.parse1 (messageText (Message.str "first object then second object"))
      = [Ex.obj1, Ex.obj2]
  ∧ validateResponse Ex.cfgS Ex.sv1 Ex.parse1
      (Message.str "first object then second object") 3
      = Except.ok (Validation.valid Ex.obj1c) :=
  ⟨rfl, validateResponse_schema_backward_scan Ex.cfgS Ex.sv1 Ex.parse1
      (Message.str "first object then second object") 3 () rfl Ex.obj1 [Ex.obj2] rfl
      Ex.obj1 rfl⟩

/-- Witness for C2 at a concrete input: two candidates and no schema, the
last one is returned. -/
theorem validateResponse_no_schema_returns_last_witness :
    Ex.parse1 (messageText (Message.str "first object then second object"))
      = [Ex.obj1, Ex.obj2]
  ∧ validateResponse Ex.cfgN Ex.sv1 Ex.parse1
      (Message.str "first object then second object") 0
      = Except.ok (Validation.valid Ex.obj2) :=
  ⟨rfl, validateResponse_no_schema_returns_last Ex.cfgN Ex.sv1 Ex.parse1
      (Message.str "first object then second object") 0 rfl Ex.obj1 [Ex.obj2] rfl⟩

/-- Witness for C3 at a concrete input: nothing extracted and a plain
string message, so the default missing-JSON feedback comes back. -/
theorem validateResponse_no_json_witness :
    Ex.parse0 (messageText (Message.str "no json here")) = []
  ∧ validateResponse Ex.cfgN Ex.sv1 Ex.parse0 (Message.str "no json here") 2
      = Except.ok (Validation.invalid
          "No valid JSON objects were found in the response. Return a valid JSON object.") :=
  ⟨rfl, validateResponse_no_json Ex.cfgN Ex.sv1 Ex.parse0 (Message.str "no json here") 2 rfl⟩

/-- Witness for C4 at a concrete input: both candidates fail, and the
feedback is built from the last object only, one line per error under the
configured header. -/
theorem validateResponse_schema_all_fail_witness :
    Ex.parse1 (messageText (Message.str "first object then second object"))
      = [Ex.obj1, Ex.obj2]
  ∧ mapGetErrorFix ((Ex.sv2 (removeEmptyValuesFromObject Ex.obj2) ()).errors)
      = Except.ok ["convert \"instance.age\" to a number"]
  ∧ validateResponse Ex.cfgS Ex.sv2 Ex.parse1
      (Message.str "first object then second object") 1
      = Except.ok (Validation.invalid
          "The JSON returned had errors. Apply these fixes:\nconvert \"instance.age\" to a number") :=
  ⟨rfl, rfl, validateResponse_schema_all_fail Ex.cfgS Ex.sv2 Ex.parse1
      (Message.str "first object then second object") 1 () rfl Ex.obj1 [Ex.obj2] rfl
      (fun j hj => rfl) ["convert \"instance.age\" to a number"] rfl⟩

/-- Witness for C5 at a concrete input: a rejecting validator with an
empty error list satisfies the library-shape hypothesis vacuously and the
call resolves to a value. -/
theorem validateResponse_never_throws_witness :
    ∃ v, validateResponse Ex.cfgS Ex.sv3 Ex.parse1
      (Message.str "first object then second object") 0 = Except.ok v :=
  validateResponse_never_throws Ex.cfgS Ex.sv3 Ex.parse1
    (Message.str "first object then second object") 0
    (fun j sc e he hn => absurd he (List.not_mem_nil e))

/-- Witness for the amended C6 at a concrete library-shaped enum message
with one colon: the feedback carries the trimmed segment after it. -/
theorem getErrorFix_enum_second_segment_witness :
    (jsSplitChar ':' "is not one of enum values: red,green").get? 1 = some " red,green"
  ∧ getErrorFix ⟨"thing", "enum", Json.null, "is not one of enum values: red,green"⟩
      = Except.ok "change the \"thing\" property to be one of these values: red,green" :=
  ⟨rfl, getErrorFix_enum_second_segment
      ⟨"thing", "enum", Json.null, "is not one of enum values: red,green"⟩
      rfl " red,green" rfl⟩

/-- Witness for C8 at a concrete input: the same call made twice gives
the same result. -/
theorem validateResponse_deterministic_witness :
    validateResponse Ex.cfgS Ex.sv1 Ex.parse1
        (Message.str "first object then second object") 0
      = validateResponse Ex.cfgS Ex.sv1 Ex.parse1
        (Message.str "first object then second object") 0 :=
  validateResponse_deterministic Ex.cfgS Ex.sv1 Ex.parse1
    (Message.str "first object then second object")
    (Message.str "first object then second object") 0 rfl rfl

/-- Witness for C10 at a concrete input: with nothing extractable, an
absent content field gives the missing-JSON feedback while a strict null
content gives `valid null`. -/
theorem validateResponse_undefined_vs_null_witness :
    Ex.parse0 "" = []
  ∧ validateResponse Ex.cfgN Ex.sv1 Ex.parse0 (Message.obj Content.undefined) 0
      = Except.ok (Validation.invalid
          "No valid JSON objects were found in the response. Return a valid JSON object.")
  ∧ validateResponse Ex.cfgN Ex.sv1 Ex.parse0 (Message.obj Content.null) 0
      = Except.ok (Validation.valid Json.null) :=
  ⟨rfl, (validateResponse_undefined_vs_null Ex.cfgN Ex.sv1 Ex.parse0 0 rfl).1,
    (validateResponse_undefined_vs_null Ex.cfgN Ex.sv1 Ex.parse0 0 rfl).2⟩

end Alphawave
